import Mathlib

/-!
Shallow embedding of the CallSession controller of `src/app/components/VideoCall.tsx`
(peerjs-poc).  The component is a flat set of event handlers over React state
and refs; we model it as pure functions over an explicit `CallState`.

Modelling conventions:
* React `useState` values and `useRef` handles become fields of `CallState`.
* Media streams and peer connections are JS heap objects mutated through
  refs; we give each a numeric id allocated from `nextId` and keep the
  objects in heap lists (`streams`, `connections`).  The refs
  (`localStreamRef`, `connectionRef`, the two `srcObject` slots) hold ids.
* `track.stop()` sets `stopped := true`; `connection.close()` sets
  `closed := true`; `call.answer(stream)` records `answeredWith := some sid`.
* `alert(...)` calls are logged in `alerts` (most recent first).
* `navigator.mediaDevices.getUserMedia` outcomes are an environment input
  `MediaResult`: the video+audio attempt succeeds (`videoAudio`), only the
  audio-only fallback succeeds (`audioOnly`), or both fail (`denied`).
* `Math.floor(Math.random() * 1000)` is an environment input `n % 1000`.
* React closure capture matters for the 15 s init timeout: the timeout
  callback reads the `connectionStatus` binding of the render that ran the
  effect, not the live value; we store that captured value in
  `initCaptured` when the effect runs.
-/

/-- The `connectionStatus` union type of the component. -/
inductive ConnectionStatus where
  | connecting
  | connected
  | error
  | disconnected
deriving DecidableEq, Repr

/-- Kind of a `MediaStreamTrack` (`getAudioTracks` vs `getVideoTracks`). -/
inductive TrackKind where
  | audio
  | video
deriving DecidableEq, Repr

/-- Outcome of the two-step `getUserMedia` fallback sequence. -/
inductive MediaResult where
  | videoAudio
  | audioOnly
  | denied
deriving DecidableEq, Repr

/-- A browser media track: its kind, its `enabled` flag (toggled by the
mute/video buttons) and whether `stop()` has been called on it. -/
structure MediaStreamTrack where
  kind : TrackKind
  enabled : Bool
  stopped : Bool
deriving DecidableEq, Repr

/-- A `MediaStream` heap object: identity plus its tracks. -/
structure MediaStream where
  sid : Nat
  tracks : List MediaStreamTrack
deriving DecidableEq, Repr

/-- A peerjs `MediaConnection` heap object: identity, whether `close()` was
called, and the stream id passed to `answer` (if answered). -/
structure Connection where
  cid : Nat
  closed : Bool
  answeredWith : Option Nat
deriving DecidableEq, Repr

/-- The whole component state: React state variables, refs, the DOM video
`srcObject` slots, and the heaps of media streams and connections. -/
structure CallState where
  peerId : String
  remotePeerId : String
  actualUsername : String
  stableId : String
  hasPeer : Bool
  callActive : Bool
  isMuted : Bool
  isVideoOff : Bool
  connectionStatus : ConnectionStatus
  localVideo : Option Nat
  remoteVideo : Option Nat
  localStream : Option Nat
  connection : Option Nat
  streams : List MediaStream
  connections : List Connection
  nextId : Nat
  outTimerArmed : Bool
  initTimerArmed : Bool
  initCaptured : ConnectionStatus
  alerts : List String
  peerDestroyed : Nat
deriving DecidableEq, Repr

/-- Component state at first render: all strings empty except the stable
random id, status `disconnected`, no peer, no call, empty heaps. -/
def mkInitial (uid : String) : CallState :=
  { peerId := ""
    remotePeerId := ""
    actualUsername := uid
    stableId := uid
    hasPeer := false
    callActive := false
    isMuted := false
    isVideoOff := false
    connectionStatus := .disconnected
    localVideo := none
    remoteVideo := none
    localStream := none
    connection := none
    streams := []
    connections := []
    nextId := 0
    outTimerArmed := false
    initTimerArmed := false
    initCaptured := .disconnected
    alerts := []
    peerDestroyed := 0 }

/-- Update every stream with the given id in the heap. -/
def updStream (sid : Nat) (f : MediaStream → MediaStream) (l : List MediaStream) :
    List MediaStream :=
  l.map fun st => if st.sid = sid then f st else st

/-- Update every connection with the given id in the heap. -/
def updConn (cid : Nat) (f : Connection → Connection) (l : List Connection) :
    List Connection :=
  l.map fun c => if c.cid = cid then f c else c

/-- Model of `stream.getTracks().forEach(track => track.stop())`. -/
def stopTracks (st : MediaStream) : MediaStream :=
  { st with tracks := st.tracks.map fun t => { t with stopped := true } }

/-- Source `endCall` (VideoCall.tsx lines 290-333): close the connection if any,
stop all local-stream tracks if any, clear both `srcObject`s, reset
`callActive`, clear `remotePeerId`, reset mute/video flags. -/
def endCall (s : CallState) : CallState :=
  let s1 :=
    match s.connection with
    | some cid =>
        { s with connections := updConn cid (fun c => { c with closed := true }) s.connections
                 connection := none }
    | none => s
  let s2 :=
    match s1.localStream with
    | some sid =>
        { s1 with streams := updStream sid stopTracks s1.streams
                  localStream := none }
    | none => s1
  { s2 with localVideo := none
            remoteVideo := none
            callActive := false
            remotePeerId := ""
            isMuted := false
            isVideoOff := false }

/-- Flip `enabled` on the audio tracks of a stream
(`getAudioTracks().forEach(track => track.enabled = !track.enabled)`). -/
def flipAudioTracks (st : MediaStream) : MediaStream :=
  { st with tracks := st.tracks.map fun t =>
      if t.kind = .audio then { t with enabled := !t.enabled } else t }

/-- Flip `enabled` on the video tracks of a stream. -/
def flipVideoTracks (st : MediaStream) : MediaStream :=
  { st with tracks := st.tracks.map fun t =>
      if t.kind = .video then { t with enabled := !t.enabled } else t }

/-- Source `toggleMute` (lines 335-343): if a local stream is held, flip the
audio tracks and the `isMuted` flag; otherwise do nothing. -/
def toggleMute (s : CallState) : CallState :=
  match s.localStream with
  | none => s
  | some sid =>
      { s with streams := updStream sid flipAudioTracks s.streams
               isMuted := !s.isMuted }

/-- Source `toggleVideo` (lines 345-353): if a local stream is held, flip the
video tracks and the `isVideoOff` flag; otherwise do nothing. -/
def toggleVideo (s : CallState) : CallState :=
  match s.localStream with
  | none => s
  | some sid =>
      { s with streams := updStream sid flipVideoTracks s.streams
               isVideoOff := !s.isVideoOff }

/-- The alert shown when both media attempts fail (lines 105 and 237). -/
def mediaDeniedMsg : String :=
  "Could not access camera or microphone. Please check permissions."

/-- The alert shown when the outgoing video attempt fails and audio-only is
used (line 234). -/
def audioOnlyMsg : String :=
  "Video is not available. Proceeding with audio only."

/-- The alert shown when the outgoing 15 s no-stream timeout fires
(line 259). -/
def connectTimeoutMsg : String :=
  "Could not connect to peer. Please check the remote ID and try again."

/-- The alert shown by `retryConnection` (line 385). -/
def retryMsg : String :=
  "Attempting to reconnect with a new ID. Please wait a moment..."

/-- The stream produced by a successful `getUserMedia` request: a video and
an audio track for the video+audio attempt, an audio track only for the
fallback.  Fresh tracks are enabled and not stopped. -/
def mediaStreamFor (m : MediaResult) (sid : Nat) : MediaStream :=
  match m with
  | .videoAudio => ⟨sid, [⟨.video, true, false⟩, ⟨.audio, true, false⟩]⟩
  | .audioOnly => ⟨sid, [⟨.audio, true, false⟩]⟩
  | .denied => ⟨sid, []⟩

/-- Source `handleIncomingCall(call, stream)` (lines 202-216): store the stream in
`localStreamRef`, show it in the local video element, `call.answer(stream)`,
set `callActive`; the `stream` handler registered here is modelled by the
`onRemoteStream` step. -/
def handleIncomingCall (cid sid : Nat) (s : CallState) : CallState :=
  { s with localStream := some sid
           localVideo := some sid
           connections := updConn cid (fun c => { c with answeredWith := some sid }) s.connections
           callActive := true }

/-- The `peer.on('call')` handler (lines 89-111): store the call in
`connectionRef` immediately, then run the `getUserMedia` fallback sequence;
on total failure alert and leave the call unanswered, otherwise hand the
acquired stream to `handleIncomingCall`. -/
def onCallEvent (m : MediaResult) (s : CallState) : CallState :=
  let cid := s.nextId
  let s1 := { s with connections := ⟨cid, false, none⟩ :: s.connections
                     connection := some cid
                     nextId := s.nextId + 1 }
  match m with
  | .denied => { s1 with alerts := mediaDeniedMsg :: s1.alerts }
  | m =>
      let sid := s1.nextId
      let s2 := { s1 with streams := mediaStreamFor m sid :: s1.streams
                          nextId := s1.nextId + 1 }
      handleIncomingCall cid sid s2

/-- Source `makeOutgoingCall(stream)` (lines 243-288): guard on peer and remote id,
attach the stream to `localStreamRef` and the local video element, create
the call (`peer.call`), store it in `connectionRef`, arm the 15 s no-stream
timeout, set `callActive`. -/
def makeOutgoingCall (sid : Nat) (s : CallState) : CallState :=
  if s.hasPeer = false ∨ s.remotePeerId = "" then s
  else
    let s1 := { s with localStream := some sid
                       localVideo := some sid }
    let cid := s1.nextId
    { s1 with connections := ⟨cid, false, none⟩ :: s1.connections
              connection := some cid
              nextId := s1.nextId + 1
              outTimerArmed := true
              callActive := true }

/-- Source `startCall` (lines 218-240): guard on peer and remote id, run the
`getUserMedia` fallback sequence; on total failure alert; on the audio-only
fallback also set `isVideoOff` and alert. -/
def startCall (m : MediaResult) (s : CallState) : CallState :=
  if s.hasPeer = false ∨ s.remotePeerId = "" then s
  else
    match m with
    | .denied => { s with alerts := mediaDeniedMsg :: s.alerts }
    | .videoAudio =>
        let sid := s.nextId
        makeOutgoingCall sid
          { s with streams := mediaStreamFor .videoAudio sid :: s.streams
                   nextId := s.nextId + 1 }
    | .audioOnly =>
        let sid := s.nextId
        let s1 := makeOutgoingCall sid
          { s with streams := mediaStreamFor .audioOnly sid :: s.streams
                   nextId := s.nextId + 1 }
        { s1 with isVideoOff := true, alerts := audioOnlyMsg :: s1.alerts }

/-- The `call.on('stream')` handler (lines 211-215 and 264-269): clear the
no-stream timeout and show the remote stream in the remote video element.
Only a call held in `connectionRef` can emit the event. -/
def onRemoteStream (rid : Nat) (s : CallState) : CallState :=
  if s.connection = none then s
  else { s with outTimerArmed := false, remoteVideo := some rid }

/-- The outgoing 15 s no-stream timeout firing (lines 256-262): if the
remote video element has no stream, alert and run `endCall`.  A fired or
cleared timer is disarmed. -/
def onOutgoingTimeout (s : CallState) : CallState :=
  if s.outTimerArmed = false then s
  else
    let s1 := { s with outTimerArmed := false }
    if s1.remoteVideo = none then
      endCall { s1 with alerts := connectTimeoutMsg :: s1.alerts }
    else s1

/-- The `call.on('close')` handler (lines 271-274): clear the timeout and
run `endCall`. -/
def onCallClose (s : CallState) : CallState :=
  endCall { s with outTimerArmed := false }

/-- The `call.on('error')` handler (lines 276-281): clear the timeout,
alert and run `endCall`. -/
def onCallError (msg : String) (s : CallState) : CallState :=
  endCall { s with outTimerArmed := false
                   alerts := ("Call error: " ++ msg) :: s.alerts }

/-- The initialization effect (lines 40-199): when no peer exists, set
status to `connecting`, create the peer, and arm the 15 s connection
timeout.  The timeout callback closes over the `connectionStatus` binding
of the render that ran the effect, whose value is the status BEFORE
`setConnectionStatus('connecting')` takes effect; it is recorded in
`initCaptured`. -/
def initEffect (s : CallState) : CallState :=
  if s.hasPeer then s
  else
    { s with initCaptured := s.connectionStatus
             connectionStatus := .connecting
             hasPeer := true
             initTimerArmed := true }

/-- The init connection timeout firing (lines 64-71): the callback tests
the CAPTURED `connectionStatus` against `'connecting'` and only then sets
status `error`. -/
def initTimeout (s : CallState) : CallState :=
  if s.initTimerArmed = false then s
  else
    let s1 := { s with initTimerArmed := false }
    if s1.initCaptured = .connecting then { s1 with connectionStatus := .error }
    else s1

/-- The `peer.on('open')` handler (lines 74-87): expose the id, set status
`connected`, clear the connection timeout. -/
def onOpen (id : String) (s : CallState) : CallState :=
  if s.hasPeer = false then s
  else { s with peerId := id
                connectionStatus := .connected
                initTimerArmed := false }

/-- The `peer.on('error')` handler (lines 113-152): branch on the error
type exactly as the source does; every branch sets status `error` (the
branches differ only in console diagnostics, which are not state). -/
def onError (etype : String) (s : CallState) : CallState :=
  if etype = "network" ∨ etype = "server-error" ∨ etype = "socket-error" then
    { s with connectionStatus := .error }
  else if etype = "unavailable-id" then
    { s with connectionStatus := .error }
  else if etype = "browser-incompatible" then
    { s with connectionStatus := .error }
  else
    { s with connectionStatus := .error }

/-- The `peer.on('disconnected')` handler (lines 154-168): set status
`disconnected` (the library reconnect attempt has no component state). -/
def onDisconnected (s : CallState) : CallState :=
  { s with connectionStatus := .disconnected }

/-- The `peer.on('close')` handler (lines 170-174). -/
def onPeerClose (s : CallState) : CallState :=
  { s with connectionStatus := .disconnected }

/-- Source `retryConnection` (lines 356-389): destroy the existing peer if any and
clear the `peer` state, clear `peerId`, set status `connecting`, generate a
new random id `user_<n % 1000>`, store it in the stable ref, alert, and set
`actualUsername` to re-run the init effect. -/
def retryConnection (n : Nat) (s : CallState) : CallState :=
  let s1 :=
    if s.hasPeer then
      { s with peerDestroyed := s.peerDestroyed + 1, hasPeer := false }
    else s
  let newId := "user_" ++ toString (n % 1000)
  { s1 with peerId := ""
            connectionStatus := .connecting
            stableId := newId
            alerts := retryMsg :: s1.alerts
            actualUsername := newId }

/-- Typing into the Remote ID input (line 451). -/
def setRemoteId (rid : String) (s : CallState) : CallState :=
  { s with remotePeerId := rid }

/-- External events driving the component, each dispatched to the handler
it belongs to.  Events originating from the peer or a call are guarded by
the existence of the peer resp. a held connection, as in the browser. -/
inductive Event where
  | effectRun
  | openEvt (id : String)
  | initTimeoutFires
  | errorEvt (etype : String)
  | disconnectedEvt
  | peerCloseEvt
  | incomingCall (m : MediaResult)
  | startCallClick (m : MediaResult)
  | remoteStream (rid : Nat)
  | outTimeoutFires
  | callCloseEvt
  | callErrorEvt (msg : String)
  | endCallClick
  | muteClick
  | videoClick
  | retryClick (n : Nat)
  | typeRemoteId (rid : String)
deriving DecidableEq, Repr

/-- One step of the event-driven machine. -/
def step (s : CallState) (e : Event) : CallState :=
  match e with
  | .effectRun => initEffect s
  | .openEvt id => onOpen id s
  | .initTimeoutFires => initTimeout s
  | .errorEvt etype => if s.hasPeer then onError etype s else s
  | .disconnectedEvt => if s.hasPeer then onDisconnected s else s
  | .peerCloseEvt => if s.hasPeer then onPeerClose s else s
  | .incomingCall m => if s.hasPeer then onCallEvent m s else s
  | .startCallClick m => startCall m s
  | .remoteStream rid => onRemoteStream rid s
  | .outTimeoutFires => onOutgoingTimeout s
  | .callCloseEvt => if s.connection = none then s else onCallClose s
  | .callErrorEvt msg => if s.connection = none then s else onCallError msg s
  | .endCallClick => endCall s
  | .muteClick => toggleMute s
  | .videoClick => toggleVideo s
  | .retryClick n => retryConnection n s
  | .typeRemoteId rid => setRemoteId rid s

/-- The state reached from a fresh mount with stable id `uid` after a list
of events. -/
def run (uid : String) (evts : List Event) : CallState :=
  evts.foldl step (mkInitial uid)

/-- Number of connections that were created and never closed. -/
def unreleasedConns (s : CallState) : Nat :=
  (s.connections.filter fun c => !c.closed).length

/-- Number of acquired streams that still have a running (non-stopped)
track. -/
def unreleasedStreams (s : CallState) : Nat :=
  (s.streams.filter fun st => st.tracks.any fun t => !t.stopped).length

/-- The heap connections the `connectionRef` currently points at. -/
def heldConns (s : CallState) : List Connection :=
  match s.connection with
  | none => []
  | some v => s.connections.filter fun c => c.cid == v

/-- The heap streams the `localStreamRef` currently points at. -/
def heldStreams (s : CallState) : List MediaStream :=
  match s.localStream with
  | none => []
  | some v => s.streams.filter fun st => st.sid == v

/-- Heap well-formedness: stream and connection ids are distinct and below
the allocation counter. -/
def WF (s : CallState) : Prop :=
  (s.streams.map MediaStream.sid).Nodup ∧
  (∀ st ∈ s.streams, st.sid < s.nextId) ∧
  (s.connections.map Connection.cid).Nodup ∧
  (∀ c ∈ s.connections, c.cid < s.nextId)

/-- An event trace in which a second incoming call arrives while the first
call is still active. -/
def doubleIncoming : List Event :=
  [.effectRun, .openEvt "alice", .incomingCall .videoAudio,
   .incomingCall .videoAudio]

/-- A connected idle state: peer open, no call, no media. -/
def exIdle : CallState := run "user_9" [.effectRun, .openEvt "alice"]

/-- A connected state with a remote id typed in, ready to start a call. -/
def exConnected : CallState :=
  run "user_9" [.effectRun, .openEvt "alice", .typeRemoteId "bob"]

/-- A state with an active incoming call: connection id 0, local stream
id 1 with a video and an audio track. -/
def exActive : CallState :=
  run "user_9" [.effectRun, .openEvt "alice", .incomingCall .videoAudio]

/-- A state with an outgoing call in flight (no-stream timeout armed). -/
def exOutgoing : CallState :=
  run "user_9" [.effectRun, .openEvt "alice", .typeRemoteId "bob",
    .startCallClick .videoAudio]

theorem map_sid_updStream (sid : Nat) (f : MediaStream → MediaStream)
    (hf : ∀ st, (f st).sid = st.sid) (l : List MediaStream) :
    (updStream sid f l).map MediaStream.sid = l.map MediaStream.sid := by
  unfold updStream
  rw [List.map_map]
  refine List.map_congr_left fun st _ => ?_
  by_cases h : st.sid = sid <;> simp [Function.comp, h, hf]

theorem map_cid_updConn (cid : Nat) (f : Connection → Connection)
    (hf : ∀ c, (f c).cid = c.cid) (l : List Connection) :
    (updConn cid f l).map Connection.cid = l.map Connection.cid := by
  unfold updConn
  rw [List.map_map]
  refine List.map_congr_left fun c _ => ?_
  by_cases h : c.cid = cid <;> simp [Function.comp, h, hf]

theorem mem_updStream {sid : Nat} {f : MediaStream → MediaStream}
    {l : List MediaStream} {st : MediaStream} (h : st ∈ updStream sid f l) :
    ∃ st0 ∈ l, st = (if st0.sid = sid then f st0 else st0) := by
  unfold updStream at h
  rcases List.mem_map.mp h with ⟨st0, h0, heq⟩
  exact ⟨st0, h0, heq.symm⟩

theorem mem_updConn {cid : Nat} {f : Connection → Connection}
    {l : List Connection} {c : Connection} (h : c ∈ updConn cid f l) :
    ∃ c0 ∈ l, c = (if c0.cid = cid then f c0 else c0) := by
  unfold updConn at h
  rcases List.mem_map.mp h with ⟨c0, h0, heq⟩
  exact ⟨c0, h0, heq.symm⟩

theorem length_filter_key_le_one {α : Type} (key : α → Nat) (v : Nat) :
    ∀ l : List α, (l.map key).Nodup →
      (l.filter fun x => key x == v).length ≤ 1 := by
  intro l
  induction l with
  | nil => intro _; simp
  | cons a l ih =>
      intro h
      rw [List.map_cons, List.nodup_cons] at h
      by_cases ha : key a = v
      · have hnone : (l.filter fun x => key x == v) = [] := by
          rw [List.filter_eq_nil_iff]
          intro x hx
          simp only [beq_iff_eq]
          intro hxv
          exact h.1 (ha ▸ hxv ▸ List.mem_map_of_mem key hx)
        simp [List.filter_cons, ha, hnone]
      · simpa [List.filter_cons, ha] using ih h.2

theorem sid_lt_updStream {l : List MediaStream} {n : Nat} (sid : Nat)
    (f : MediaStream → MediaStream) (hf : ∀ st, (f st).sid = st.sid)
    (h2 : ∀ st ∈ l, st.sid < n) :
    ∀ st ∈ updStream sid f l, st.sid < n := by
  intro st hst
  rcases mem_updStream hst with ⟨st0, h0, rfl⟩
  by_cases hc : st0.sid = sid
  · simpa [hc, hf] using h2 st0 h0
  · simpa [hc] using h2 st0 h0

theorem cid_lt_updConn {l : List Connection} {n : Nat} (cid : Nat)
    (f : Connection → Connection) (hf : ∀ c, (f c).cid = c.cid)
    (h4 : ∀ c ∈ l, c.cid < n) :
    ∀ c ∈ updConn cid f l, c.cid < n := by
  intro c hc2
  rcases mem_updConn hc2 with ⟨c0, h0, rfl⟩
  by_cases hc : c0.cid = cid
  · simpa [hc, hf] using h4 c0 h0
  · simpa [hc] using h4 c0 h0

theorem WF_endCall {s : CallState} (h : WF s) : WF (endCall s) := by
  obtain ⟨h1, h2, h3, h4⟩ := h
  unfold WF endCall
  cases hc : s.connection <;> cases hl : s.localStream <;>
    simp only [hc, hl] <;>
    refine ⟨?_, ?_, ?_, ?_⟩ <;>
    first
      | assumption
      | (rw [map_sid_updStream _ stopTracks fun st => rfl]; assumption)
      | (rw [map_cid_updConn _ (fun c => { c with closed := true }) fun c => rfl]
         assumption)
      | exact sid_lt_updStream _ stopTracks (fun st => rfl) h2
      | exact cid_lt_updConn _ (fun c => { c with closed := true }) (fun c => rfl) h4

theorem WF_of_eq {s t : CallState} (h : WF s) (hs : t.streams = s.streams)
    (hc : t.connections = s.connections) (hn : t.nextId = s.nextId) : WF t := by
  unfold WF at h ⊢
  rw [hs, hc, hn]
  exact h

theorem WF_toggleMute {s : CallState} (h : WF s) : WF (toggleMute s) := by
  obtain ⟨h1, h2, h3, h4⟩ := h
  unfold WF toggleMute
  cases hl : s.localStream <;> simp only [hl]
  · exact ⟨h1, h2, h3, h4⟩
  · exact ⟨by rw [map_sid_updStream _ flipAudioTracks fun st => rfl]; exact h1,
      sid_lt_updStream _ flipAudioTracks (fun st => rfl) h2, h3, h4⟩

theorem WF_toggleVideo {s : CallState} (h : WF s) : WF (toggleVideo s) := by
  obtain ⟨h1, h2, h3, h4⟩ := h
  unfold WF toggleVideo
  cases hl : s.localStream <;> simp only [hl]
  · exact ⟨h1, h2, h3, h4⟩
  · exact ⟨by rw [map_sid_updStream _ flipVideoTracks fun st => rfl]; exact h1,
      sid_lt_updStream _ flipVideoTracks (fun st => rfl) h2, h3, h4⟩

theorem WF_onCallEvent (m : MediaResult) {s : CallState} (h : WF s) :
    WF (onCallEvent m s) := by
  obtain ⟨h1, h2, h3, h4⟩ := h
  unfold WF onCallEvent handleIncomingCall
  cases m <;>
    simp only [List.map_cons, List.nodup_cons, List.mem_map, List.mem_cons]
  case denied =>
    refine ⟨h1, fun st hst => Nat.lt_succ_of_lt (h2 st hst), ⟨?_, h3⟩, ?_⟩
    · rintro ⟨c, hcmem, hcid⟩
      exact Nat.lt_irrefl _ (hcid ▸ h4 c hcmem)
    · rintro c (rfl | hcm)
      · exact Nat.lt_succ_self _
      · exact Nat.lt_succ_of_lt (h4 c hcm)
  all_goals
    refine ⟨⟨?_, h1⟩, ?_, ?_, ?_⟩
    · rintro ⟨st, hstm, hsid⟩
      exact Nat.lt_irrefl _ (Nat.lt_of_lt_of_le (hsid ▸ h2 st hstm)
        (Nat.le_succ _))
    · rintro st (rfl | hstm)
      · exact Nat.lt_succ_self _
      · exact Nat.lt_succ_of_lt (Nat.lt_succ_of_lt (h2 st hstm))
    · rw [map_cid_updConn _
        (fun c => { c with answeredWith := some (s.nextId + 1) }) fun c => rfl]
      simp only [List.map_cons, List.nodup_cons, List.mem_map]
      refine ⟨?_, h3⟩
      rintro ⟨c, hcmem, hcid⟩
      exact Nat.lt_irrefl _ (hcid ▸ h4 c hcmem)
    · refine cid_lt_updConn _
        (fun c => { c with answeredWith := some (s.nextId + 1) }) (fun c => rfl) ?_
      intro c hcm0
      rcases List.mem_cons.mp hcm0 with rfl | hcm
      · exact Nat.lt_succ_of_lt (Nat.lt_succ_self _)
      · exact Nat.lt_succ_of_lt (Nat.lt_succ_of_lt (h4 c hcm))

theorem WF_makeOutgoingCall (sid : Nat) {s : CallState} (h : WF s) :
    WF (makeOutgoingCall sid s) := by
  obtain ⟨h1, h2, h3, h4⟩ := h
  unfold WF makeOutgoingCall
  by_cases hg : s.hasPeer = false ∨ s.remotePeerId = "" <;> simp only [hg, if_true, if_false]
  · exact ⟨h1, h2, h3, h4⟩
  · simp only [List.map_cons, List.nodup_cons, List.mem_map, List.mem_cons]
    refine ⟨h1, fun st hst => Nat.lt_succ_of_lt (h2 st hst), ⟨?_, h3⟩, ?_⟩
    · rintro ⟨c, hcmem, hcid⟩
      exact Nat.lt_irrefl _ (hcid ▸ h4 c hcmem)
    · rintro c (rfl | hcm)
      · exact Nat.lt_succ_self _
      · exact Nat.lt_succ_of_lt (h4 c hcm)

theorem WF_consStream {s : CallState} (h : WF s) :
    WF { s with streams := mediaStreamFor .videoAudio s.nextId :: s.streams
                nextId := s.nextId + 1 } ∧
    WF { s with streams := mediaStreamFor .audioOnly s.nextId :: s.streams
                nextId := s.nextId + 1 } := by
  obtain ⟨h1, h2, h3, h4⟩ := h
  constructor <;>
    refine ⟨?_, ?_, h3, fun c hcm => Nat.lt_succ_of_lt (h4 c hcm)⟩ <;>
    [skip; skip; skip; skip] <;>
    first
      | (simp only [List.map_cons, List.nodup_cons, List.mem_map]
         refine ⟨?_, h1⟩
         rintro ⟨st, hstm, hsid⟩
         exact Nat.lt_irrefl _ (hsid ▸ h2 st hstm))
      | (intro st hstm0
         rcases List.mem_cons.mp hstm0 with rfl | hstm
         · exact Nat.lt_succ_self _
         · exact Nat.lt_succ_of_lt (h2 st hstm))

theorem WF_startCall (m : MediaResult) {s : CallState} (h : WF s) :
    WF (startCall m s) := by
  unfold startCall
  split
  · exact h
  · cases m with
    | denied => exact WF_of_eq h rfl rfl rfl
    | videoAudio => exact WF_makeOutgoingCall _ (WF_consStream h).1
    | audioOnly =>
        refine WF_of_eq (WF_makeOutgoingCall s.nextId (WF_consStream h).2) rfl rfl rfl

theorem WF_step (e : Event) (s : CallState) (h : WF s) : WF (step s e) := by
  cases e <;> simp only [step]
  case effectRun =>
    unfold initEffect
    split
    · exact h
    · exact WF_of_eq h rfl rfl rfl
  case openEvt id =>
    unfold onOpen
    split
    · exact h
    · exact WF_of_eq h rfl rfl rfl
  case initTimeoutFires =>
    unfold initTimeout
    split
    · exact h
    · dsimp only
      split <;> exact WF_of_eq h rfl rfl rfl
  case errorEvt etype =>
    split
    · unfold onError
      split
      · exact WF_of_eq h rfl rfl rfl
      · split
        · exact WF_of_eq h rfl rfl rfl
        · split <;> exact WF_of_eq h rfl rfl rfl
    · exact h
  case disconnectedEvt =>
    split
    · exact WF_of_eq h rfl rfl rfl
    · exact h
  case peerCloseEvt =>
    split
    · exact WF_of_eq h rfl rfl rfl
    · exact h
  case incomingCall m =>
    split
    · exact WF_onCallEvent m h
    · exact h
  case startCallClick m => exact WF_startCall m h
  case remoteStream rid =>
    unfold onRemoteStream
    split
    · exact h
    · exact WF_of_eq h rfl rfl rfl
  case outTimeoutFires =>
    unfold onOutgoingTimeout
    split
    · exact h
    · dsimp only
      split
      · exact WF_endCall (WF_of_eq h rfl rfl rfl)
      · exact WF_of_eq h rfl rfl rfl
  case callCloseEvt =>
    split
    · exact h
    · exact WF_endCall (WF_of_eq h rfl rfl rfl)
  case callErrorEvt msg =>
    split
    · exact h
    · exact WF_endCall (WF_of_eq h rfl rfl rfl)
  case endCallClick => exact WF_endCall h
  case muteClick => exact WF_toggleMute h
  case videoClick => exact WF_toggleVideo h
  case retryClick n =>
    unfold retryConnection
    split <;> exact WF_of_eq h rfl rfl rfl
  case typeRemoteId rid => exact WF_of_eq h rfl rfl rfl

theorem WF_mkInitial (uid : String) : WF (mkInitial uid) := by
  refine ⟨?_, ?_, ?_, ?_⟩ <;> simp [mkInitial]

theorem run_WF (uid : String) (evts : List Event) : WF (run uid evts) := by
  unfold run
  suffices h : ∀ s, WF s → WF (evts.foldl step s) from h _ (WF_mkInitial uid)
  induction evts with
  | nil => intro s hs; exact hs
  | cons e evts ih => intro s hs; exact ih _ (WF_step e s hs)


theorem endCall_eq (s : CallState) :
    endCall s = { s with
      connections :=
        match s.connection with
        | some cid => updConn cid (fun c => { c with closed := true }) s.connections
        | none => s.connections
      connection := none
      streams :=
        match s.localStream with
        | some sid => updStream sid stopTracks s.streams
        | none => s.streams
      localStream := none
      localVideo := none
      remoteVideo := none
      callActive := false
      remotePeerId := ""
      isMuted := false
      isVideoOff := false } := by
  cases hc : s.connection <;> cases hl : s.localStream <;> simp [endCall, hc, hl]

theorem stopped_of_mem_updStream {l : List MediaStream} {sid : Nat}
    {st : MediaStream} (h : st ∈ updStream sid stopTracks l)
    (hsid : st.sid = sid) : ∀ t ∈ st.tracks, t.stopped = true := by
  rcases mem_updStream h with ⟨st0, _, rfl⟩
  by_cases hc : st0.sid = sid
  · intro t ht
    rw [if_pos hc] at ht
    simp only [stopTracks, List.mem_map] at ht
    rcases ht with ⟨t0, _, rfl⟩
    rfl
  · rw [if_neg hc] at hsid
    exact absurd hsid hc

theorem closed_of_mem_updConn {l : List Connection} {v : Nat} {c : Connection}
    (h : c ∈ updConn v (fun c0 => { c0 with closed := true }) l)
    (hcid : c.cid = v) : c.closed = true := by
  rcases mem_updConn h with ⟨c0, _, rfl⟩
  by_cases hc : c0.cid = v
  · rw [if_pos hc]
  · rw [if_neg hc] at hcid ⊢
    exact absurd hcid hc

theorem answered_of_mem_updConn {l : List Connection} {v w : Nat}
    {c : Connection}
    (h : c ∈ updConn v (fun c0 => { c0 with answeredWith := some w }) l)
    (hcid : c.cid = v) : c.answeredWith = some w := by
  rcases mem_updConn h with ⟨c0, _, rfl⟩
  by_cases hc : c0.cid = v
  · rw [if_pos hc]
  · rw [if_neg hc] at hcid ⊢
    exact absurd hcid hc

/-- C1: for every prior state (call active, call pending, or no call at
all), after `endCall()` returns the connection handle is null, every track
of the local media stream has been stopped and the stream handle is null,
both video surfaces are cleared, the call-active flag is false and the
mute/video-off flags are reset to false. -/
theorem C1_endCall_resets (s : CallState) :
    (endCall s).connection = none ∧
    (endCall s).localStream = none ∧
    (∀ sid, s.localStream = some sid →
      ∀ st ∈ (endCall s).streams, st.sid = sid →
        ∀ t ∈ st.tracks, t.stopped = true) ∧
    (endCall s).localVideo = none ∧
    (endCall s).remoteVideo = none ∧
    (endCall s).callActive = false ∧
    (endCall s).isMuted = false ∧
    (endCall s).isVideoOff = false := by
  rw [endCall_eq]
  refine ⟨rfl, rfl, ?_, rfl, rfl, rfl, rfl, rfl⟩
  intro sid hsid st hmem hst
  rw [hsid] at hmem
  exact stopped_of_mem_updStream hmem hst

/-- C1 witness: on a concrete active-call state with local stream id 1. -/
theorem C1_endCall_resets_witness :
    (endCall exActive).connection = none ∧
    (∀ st ∈ (endCall exActive).streams, st.sid = 1 →
      ∀ t ∈ st.tracks, t.stopped = true) := by
  have h := C1_endCall_resets exActive
  exact ⟨h.1, h.2.2.1 1 (by decide)⟩

/-- C2: `endCall()` is idempotent, and when the connection and stream
handles are already null it performs no closing or stopping action (the
heaps are untouched) and leaves the same reset configuration. -/
theorem C2_endCall_idempotent (s : CallState) :
    endCall (endCall s) = endCall s ∧
    (s.connection = none → s.localStream = none →
      (endCall s).streams = s.streams ∧
      (endCall s).connections = s.connections ∧
      endCall s = { s with localVideo := none, remoteVideo := none,
                           callActive := false, remotePeerId := "",
                           isMuted := false, isVideoOff := false }) := by
  constructor
  · cases hc : s.connection <;> cases hl : s.localStream <;>
      simp [endCall, hc, hl]
  · intro hc hl
    rw [endCall_eq, hc, hl]
    exact ⟨rfl, rfl, rfl⟩

/-- C2 witness: on a concrete idle state with both handles null. -/
theorem C2_endCall_idempotent_witness :
    endCall (endCall exIdle) = endCall exIdle ∧
    (endCall exIdle).streams = exIdle.streams ∧
    (endCall exIdle).connections = exIdle.connections := by
  have h := C2_endCall_idempotent exIdle
  exact ⟨h.1, (h.2 (by decide) (by decide)).1, (h.2 (by decide) (by decide)).2.1⟩

theorem getElem?_updStream (sid : Nat) (f : MediaStream → MediaStream)
    (l : List MediaStream) (i : Nat) :
    (updStream sid f l)[i]? =
      (l[i]?).map fun st => if st.sid = sid then f st else st :=
  List.getElem?_map _ l i

theorem getElem?_updConn (cid : Nat) (f : Connection → Connection)
    (l : List Connection) (i : Nat) :
    (updConn cid f l)[i]? =
      (l[i]?).map fun c => if c.cid = cid then f c else c :=
  List.getElem?_map _ l i

theorem endCall_streams (s : CallState) :
    (endCall s).streams =
      match s.localStream with
      | some sid => updStream sid stopTracks s.streams
      | none => s.streams := by
  rw [endCall_eq]

theorem endCall_connections (s : CallState) :
    (endCall s).connections =
      match s.connection with
      | some cid => updConn cid (fun c => { c with closed := true }) s.connections
      | none => s.connections := by
  rw [endCall_eq]

/-- C10: `endCall()` also clears the stored remote id (so `startCall` on
the resulting state is a no-op until a new remote id is entered), and
modifies nothing beyond the connection handle, local stream, video
surfaces, call-active flag, mute/video flags and remote id: all other
state fields are unchanged, and heap objects other than the held
connection and stream are untouched. -/
theorem C10_endCall_frame (s : CallState) :
    (endCall s).remotePeerId = "" ∧
    (∀ m, startCall m (endCall s) = endCall s) ∧
    (endCall s).peerId = s.peerId ∧
    (endCall s).actualUsername = s.actualUsername ∧
    (endCall s).stableId = s.stableId ∧
    (endCall s).hasPeer = s.hasPeer ∧
    (endCall s).connectionStatus = s.connectionStatus ∧
    (endCall s).nextId = s.nextId ∧
    (endCall s).outTimerArmed = s.outTimerArmed ∧
    (endCall s).initTimerArmed = s.initTimerArmed ∧
    (endCall s).initCaptured = s.initCaptured ∧
    (endCall s).alerts = s.alerts ∧
    (endCall s).peerDestroyed = s.peerDestroyed ∧
    (endCall s).streams.length = s.streams.length ∧
    (endCall s).connections.length = s.connections.length ∧
    (∀ (i : Nat) (st st2 : MediaStream), s.streams[i]? = some st →
      (endCall s).streams[i]? = some st2 →
        st2.sid = st.sid ∧ (s.localStream ≠ some st.sid → st2 = st)) ∧
    (∀ (i : Nat) (c c2 : Connection), s.connections[i]? = some c →
      (endCall s).connections[i]? = some c2 →
        c2.cid = c.cid ∧ (s.connection ≠ some c.cid → c2 = c)) := by
  refine ⟨?_, ?_, ?_, ?_, ?_, ?_, ?_, ?_, ?_, ?_, ?_, ?_, ?_, ?_, ?_, ?_, ?_⟩
  · rw [endCall_eq]
  · intro m
    unfold startCall
    rw [endCall_eq]
    simp
  · rw [endCall_eq]
  · rw [endCall_eq]
  · rw [endCall_eq]
  · rw [endCall_eq]
  · rw [endCall_eq]
  · rw [endCall_eq]
  · rw [endCall_eq]
  · rw [endCall_eq]
  · rw [endCall_eq]
  · rw [endCall_eq]
  · rw [endCall_eq]
  · rw [endCall_streams]
    cases hl : s.localStream <;> simp [updStream]
  · rw [endCall_connections]
    cases hc : s.connection <;> simp [updConn]
  · intro i st st2 h1 h2
    rw [endCall_streams] at h2
    cases hl : s.localStream with
    | none =>
        rw [hl] at h2
        simp only [h1] at h2
        cases h2
        exact ⟨rfl, fun _ => rfl⟩
    | some sid =>
        simp only [hl] at h2
        rw [getElem?_updStream, h1] at h2
        replace h2 : st2 = if st.sid = sid then stopTracks st else st :=
          (Option.some.inj h2).symm
        by_cases hs : st.sid = sid
        · rw [h2, if_pos hs]
          refine ⟨rfl, fun hne => ?_⟩
          exact absurd (congrArg some hs.symm) hne
        · rw [h2, if_neg hs]
          exact ⟨rfl, fun _ => rfl⟩
  · intro i c c2 h1 h2
    rw [endCall_connections] at h2
    cases hc : s.connection with
    | none =>
        rw [hc] at h2
        simp only [h1] at h2
        cases h2
        exact ⟨rfl, fun _ => rfl⟩
    | some cid =>
        simp only [hc] at h2
        rw [getElem?_updConn, h1] at h2
        replace h2 : c2 = if c.cid = cid then { c with closed := true } else c :=
          (Option.some.inj h2).symm
        by_cases hs : c.cid = cid
        · rw [h2, if_pos hs]
          refine ⟨rfl, fun hne => ?_⟩
          exact absurd (congrArg some hs.symm) hne
        · rw [h2, if_neg hs]
          exact ⟨rfl, fun _ => rfl⟩

/-- C10 witness: on a concrete active-call state. -/
theorem C10_endCall_frame_witness :
    (endCall exActive).remotePeerId = "" ∧
    startCall .videoAudio (endCall exActive) = endCall exActive ∧
    (endCall exActive).connectionStatus = exActive.connectionStatus := by
  have h := C10_endCall_frame exActive
  exact ⟨h.1, h.2.1 .videoAudio, h.2.2.2.2.2.2.1⟩

/-- C3 counterexample: after a second incoming call arrives during an
active call, TWO connections are open (the first was never closed) and TWO
acquired streams still have running tracks (the first was never stopped),
so the claimed invariant "at most one active call and one local stream
exist concurrently; ending a call always releases both before allowing a
new call" is false on this reachable state. -/
theorem C3_counterexample :
    1 < unreleasedConns (run "user_7" doubleIncoming) ∧
    1 < unreleasedStreams (run "user_7" doubleIncoming) ∧
    (run "user_7" doubleIncoming).callActive = true := by
  decide

/-- C3 amended: in every reachable state the controller HOLDS at most one
connection and at most one stream (the refs are single-valued over the
distinct-id heaps), and `endCall` releases the held connection (closed)
and the held stream (all tracks stopped); but a second incoming call
replaces the handles without releasing the previous resources, so only the
held resources are bounded, not the unreleased ones. -/
theorem C3_single_held_and_release (uid : String) (evts : List Event) :
    (heldConns (run uid evts)).length ≤ 1 ∧
    (heldStreams (run uid evts)).length ≤ 1 ∧
    (∀ c ∈ (endCall (run uid evts)).connections,
      (run uid evts).connection = some c.cid → c.closed = true) ∧
    (∀ st ∈ (endCall (run uid evts)).streams,
      (run uid evts).localStream = some st.sid →
        ∀ t ∈ st.tracks, t.stopped = true) := by
  obtain ⟨h1, h2, h3, h4⟩ := run_WF uid evts
  refine ⟨?_, ?_, ?_, ?_⟩
  · unfold heldConns
    cases hc : (run uid evts).connection
    · simp
    · exact length_filter_key_le_one Connection.cid _ _ h3
  · unfold heldStreams
    cases hl : (run uid evts).localStream
    · simp
    · exact length_filter_key_le_one MediaStream.sid _ _ h1
  · intro c hmem hcid
    rw [endCall_connections] at hmem
    cases hc : (run uid evts).connection with
    | none => rw [hc] at hcid; cases hcid
    | some v =>
        simp only [hc] at hmem
        rw [hc] at hcid
        exact closed_of_mem_updConn hmem (Option.some.inj hcid).symm
  · intro st hmem hsid
    rw [endCall_streams] at hmem
    cases hl : (run uid evts).localStream with
    | none => rw [hl] at hsid; cases hsid
    | some v =>
        simp only [hl] at hmem
        rw [hl] at hsid
        exact stopped_of_mem_updStream hmem (Option.some.inj hsid).symm

/-- C3 witness: the amended bound evaluated on the double-incoming trace:
even there the refs hold one connection and one stream, and endCall closes
the held connection. -/
theorem C3_single_held_and_release_witness :
    (heldConns (run "user_8" doubleIncoming)).length ≤ 1 ∧
    (heldStreams (run "user_8" doubleIncoming)).length ≤ 1 := by
  have h := C3_single_held_and_release "user_8" doubleIncoming
  exact ⟨h.1, h.2.1⟩

/-- C4: code bug.  On a fresh mount the init effect runs in a render where
`connectionStatus` is `disconnected`; the 15 s timeout callback closes over
that stale value, so its `connectionStatus === connecting` guard fails and
the promised transition to `error` never happens: the status is still
`connecting` after the timeout fires with neither open nor error having
occurred.  The `open` half of the claim does hold (status `connected`,
id exposed). -/
theorem C4_init_timeout_stale_closure :
    (initEffect (mkInitial "user_3")).connectionStatus =
      ConnectionStatus.connecting ∧
    (initEffect (mkInitial "user_3")).initTimerArmed = true ∧
    (initEffect (mkInitial "user_3")).initCaptured =
      ConnectionStatus.disconnected ∧
    (initTimeout (initEffect (mkInitial "user_3"))).connectionStatus =
      ConnectionStatus.connecting ∧
    (initTimeout (initEffect (mkInitial "user_3"))).connectionStatus ≠
      ConnectionStatus.error ∧
    (onOpen "alice" (initEffect (mkInitial "user_3"))).connectionStatus =
      ConnectionStatus.connected ∧
    (onOpen "alice" (initEffect (mkInitial "user_3"))).peerId = "alice" := by
  decide

/-- C5: for every incoming call event, if both media attempts fail then an
alert is raised, the call is left unanswered and no stream handle is
attached (local stream ref, local video surface and stream heap untouched);
if either attempt succeeds, the call is answered with the acquired stream
(video+audio tracks, or audio-only on fallback), the local stream ref and
local video surface are attached to it, the call becomes active, and the
remote stream is attached to the remote surface when the stream event
arrives. -/
theorem C5_incoming_fallback (s : CallState) :
    ((onCallEvent .denied s).localStream = s.localStream ∧
     (onCallEvent .denied s).localVideo = s.localVideo ∧
     (onCallEvent .denied s).streams = s.streams ∧
     (onCallEvent .denied s).callActive = s.callActive ∧
     (onCallEvent .denied s).connections =
       ⟨s.nextId, false, none⟩ :: s.connections ∧
     (onCallEvent .denied s).alerts = mediaDeniedMsg :: s.alerts) ∧
    (∀ m, m ≠ .denied →
      (onCallEvent m s).localStream = some (s.nextId + 1) ∧
      (onCallEvent m s).localVideo = some (s.nextId + 1) ∧
      (onCallEvent m s).callActive = true ∧
      (onCallEvent m s).streams.head? =
        some (mediaStreamFor m (s.nextId + 1)) ∧
      (∀ c ∈ (onCallEvent m s).connections, c.cid = s.nextId →
        c.answeredWith = some (s.nextId + 1))) ∧
    (∀ (rid : Nat) (s2 : CallState), s2.connection ≠ none →
      (onRemoteStream rid s2).remoteVideo = some rid) := by
  refine ⟨?_, ?_, ?_⟩
  · exact ⟨rfl, rfl, rfl, rfl, rfl, rfl⟩
  · intro m hm
    cases m with
    | denied => exact absurd rfl hm
    | videoAudio =>
        refine ⟨rfl, rfl, rfl, rfl, ?_⟩
        intro c hmem hcid
        simp only [onCallEvent, handleIncomingCall] at hmem
        exact answered_of_mem_updConn hmem hcid
    | audioOnly =>
        refine ⟨rfl, rfl, rfl, rfl, ?_⟩
        intro c hmem hcid
        simp only [onCallEvent, handleIncomingCall] at hmem
        exact answered_of_mem_updConn hmem hcid
  · intro rid s2 h
    unfold onRemoteStream
    cases hc : s2.connection with
    | none => exact absurd hc h
    | some v => simp [hc]

/-- C5 witness: audio-only fallback on a concrete connected state. -/
theorem C5_incoming_fallback_witness :
    (onCallEvent .audioOnly exIdle).localStream = some (exIdle.nextId + 1) ∧
    (onRemoteStream 42 (onCallEvent .audioOnly exIdle)).remoteVideo =
      some 42 := by
  have h := C5_incoming_fallback exIdle
  refine ⟨(h.2.1 .audioOnly (by decide)).1, ?_⟩
  exact h.2.2 42 (onCallEvent .audioOnly exIdle) (by decide)

/-- C6: starting an outgoing call (with a connected peer, a remote id and
granted media) arms the 15 s no-stream timeout; if the timeout fires while
no remote stream is attached, an alert is raised and the full `endCall`
cleanup runs; if the remote stream event arrives first, the timeout is
cancelled and a later firing is a no-op (no abort). -/
theorem C6_outgoing_timeout (s : CallState) (m : MediaResult)
    (hp : s.hasPeer = true) (hr : s.remotePeerId ≠ "") (hm : m ≠ .denied) :
    (startCall m s).outTimerArmed = true ∧
    (∀ s2 : CallState, s2.outTimerArmed = true → s2.remoteVideo = none →
      onOutgoingTimeout s2 =
        endCall { s2 with outTimerArmed := false,
                          alerts := connectTimeoutMsg :: s2.alerts }) ∧
    (∀ (s2 : CallState) (rid : Nat), s2.connection ≠ none →
      (onRemoteStream rid s2).outTimerArmed = false ∧
      onOutgoingTimeout (onRemoteStream rid s2) = onRemoteStream rid s2) := by
  refine ⟨?_, ?_, ?_⟩
  · unfold startCall makeOutgoingCall
    cases m with
    | denied => exact absurd rfl hm
    | videoAudio => simp [hp, hr]
    | audioOnly => simp [hp, hr]
  · intro s2 harm hrv
    unfold onOutgoingTimeout
    rw [harm]
    simp only [Bool.true_eq_false, if_false]
    rw [if_pos]
    exact hrv
  · intro s2 rid hconn
    unfold onRemoteStream
    cases hc : s2.connection with
    | none => exact absurd hc hconn
    | some v =>
        simp only [if_neg (by simp : ¬(some v = none))]
        constructor
        · trivial
        · unfold onOutgoingTimeout
          simp

/-- C6 witness: on a concrete connected state with remote id "bob". -/
theorem C6_outgoing_timeout_witness :
    (startCall .videoAudio exConnected).outTimerArmed = true ∧
    (onRemoteStream 42 exOutgoing).outTimerArmed = false := by
  have h := C6_outgoing_timeout exConnected .videoAudio (by decide) (by decide)
    (by decide)
  refine ⟨h.1, ?_⟩
  exact (h.2.2 exOutgoing 42 (by decide)).1

/-- C7 counterexample: the new identity is `user_` plus a fresh random
number below 1000 and can coincide with the previous identity.  Starting
from a state whose identity is `user_5` (peer connected under that id), a
retry that draws 5 reproduces exactly the same identity, refuting "always
produces a distinct identity". -/
theorem C7_counterexample :
    (run "user_5" [.effectRun, .openEvt "user_5"]).hasPeer = true ∧
    (retryConnection 5 (run "user_5" [.effectRun, .openEvt "user_5"])).actualUsername
      = (run "user_5" [.effectRun, .openEvt "user_5"]).actualUsername ∧
    (retryConnection 5 (run "user_5" [.effectRun, .openEvt "user_5"])).stableId
      = (run "user_5" [.effectRun, .openEvt "user_5"]).stableId := by
  decide

/-- C7 amended: every `retry()` destroys the existing peer (when one
exists), clears the exposed id and the peer handle, resets the status to
`connecting` before re-initializing, and generates a fresh random identity
of the form `user_N` with `N` below 1000 — which may coincide with the
previous identity. -/
theorem C7_retry_resets (n : Nat) (s : CallState) :
    (retryConnection n s).connectionStatus = ConnectionStatus.connecting ∧
    (retryConnection n s).peerId = "" ∧
    (retryConnection n s).hasPeer = false ∧
    (s.hasPeer = true →
      (retryConnection n s).peerDestroyed = s.peerDestroyed + 1) ∧
    (s.hasPeer = false →
      (retryConnection n s).peerDestroyed = s.peerDestroyed) ∧
    (retryConnection n s).actualUsername = "user_" ++ toString (n % 1000) ∧
    (retryConnection n s).stableId = "user_" ++ toString (n % 1000) := by
  unfold retryConnection
  by_cases hp : s.hasPeer = true <;> simp [hp]

/-- C7 witness: a retry on a concrete connected state destroys the peer
and resets the status. -/
theorem C7_retry_resets_witness :
    (retryConnection 123 exIdle).connectionStatus =
      ConnectionStatus.connecting ∧
    (retryConnection 123 exIdle).peerDestroyed = exIdle.peerDestroyed + 1 := by
  have h := C7_retry_resets 123 exIdle
  exact ⟨h.1, h.2.2.2.1 (by decide)⟩

/-- C8: every signaling error event sets the connection status to `error`,
whatever the error type; the branching on the type affects only console
diagnostics, so the resulting state is identical for all types. -/
theorem C8_error_always_error (etype : String) (s : CallState) :
    onError etype s = { s with connectionStatus := ConnectionStatus.error } := by
  unfold onError
  split
  · rfl
  · split
    · rfl
    · split <;> rfl

/-- C8 witness: a concrete unknown error type on a concrete state. -/
theorem C8_error_always_error_witness :
    onError "webrtc" exIdle =
      { exIdle with connectionStatus := ConnectionStatus.error } :=
  C8_error_always_error "webrtc" exIdle

theorem tracks_map_getElem {g : MediaStreamTrack → MediaStreamTrack}
    {ts : List MediaStreamTrack} {j : Nat} {t t2 : MediaStreamTrack}
    (h1 : ts[j]? = some t) (h2 : (ts.map g)[j]? = some t2) : t2 = g t := by
  rw [List.getElem?_map, h1] at h2
  exact (Option.some.inj h2).symm

theorem updStream_pointwise {sidv : Nat} {f : MediaStream → MediaStream}
    {g : MediaStreamTrack → MediaStreamTrack}
    (hf : ∀ s0, f s0 = { s0 with tracks := s0.tracks.map g })
    {l : List MediaStream} {i : Nat} {st st2 : MediaStream}
    (h1 : l[i]? = some st)
    (h2 : (updStream sidv f l)[i]? = some st2) :
    (st.sid ≠ sidv → st2 = st) ∧
    (st.sid = sidv → st2.tracks.length = st.tracks.length ∧
      ∀ (j : Nat) (t t2 : MediaStreamTrack),
        st.tracks[j]? = some t → st2.tracks[j]? = some t2 → t2 = g t) := by
  rw [getElem?_updStream, h1] at h2
  replace h2 : st2 = if st.sid = sidv then f st else st :=
    (Option.some.inj h2).symm
  constructor
  · intro hne
    rw [h2, if_neg hne]
  · intro heq
    rw [h2, if_pos heq, hf]
    refine ⟨by simp, ?_⟩
    intro j t t2 ht1 ht2
    exact tracks_map_getElem ht1 ht2

/-- C9: with a local stream held, `toggleMute` flips `enabled` on exactly
the audio tracks of that stream (and the mute flag), `toggleVideo` flips
`enabled` on exactly the video tracks (and the video-off flag), other heap
streams are untouched; with no local stream both operations change
nothing at all. -/
theorem C9_toggles (s : CallState) :
    (s.localStream = none → toggleMute s = s ∧ toggleVideo s = s) ∧
    (∀ sid, s.localStream = some sid →
      (toggleMute s).isMuted = (!s.isMuted) ∧
      (toggleVideo s).isVideoOff = (!s.isVideoOff) ∧
      (toggleMute s).streams.length = s.streams.length ∧
      (toggleVideo s).streams.length = s.streams.length ∧
      (∀ (i : Nat) (st st2 : MediaStream), s.streams[i]? = some st →
        (toggleMute s).streams[i]? = some st2 →
          (st.sid ≠ sid → st2 = st) ∧
          (st.sid = sid → st2.tracks.length = st.tracks.length ∧
            ∀ (j : Nat) (t t2 : MediaStreamTrack),
              st.tracks[j]? = some t → st2.tracks[j]? = some t2 →
                (t.kind = .audio → t2 = { t with enabled := !t.enabled }) ∧
                (t.kind ≠ .audio → t2 = t))) ∧
      (∀ (i : Nat) (st st2 : MediaStream), s.streams[i]? = some st →
        (toggleVideo s).streams[i]? = some st2 →
          (st.sid ≠ sid → st2 = st) ∧
          (st.sid = sid → st2.tracks.length = st.tracks.length ∧
            ∀ (j : Nat) (t t2 : MediaStreamTrack),
              st.tracks[j]? = some t → st2.tracks[j]? = some t2 →
                (t.kind = .video → t2 = { t with enabled := !t.enabled }) ∧
                (t.kind ≠ .video → t2 = t)))) := by
  constructor
  · intro h
    constructor <;> simp [toggleMute, toggleVideo, h]
  · intro sid hsid
    refine ⟨by simp [toggleMute, hsid], by simp [toggleVideo, hsid],
      by simp [toggleMute, hsid, updStream],
      by simp [toggleVideo, hsid, updStream], ?_, ?_⟩
    · intro i st st2 h1 h2
      simp only [toggleMute, hsid] at h2
      have hpt := updStream_pointwise (fun s0 => rfl) h1 h2
      refine ⟨hpt.1, ?_⟩
      intro heq
      refine ⟨(hpt.2 heq).1, ?_⟩
      intro j t t2 ht1 ht2
      have ht := (hpt.2 heq).2 j t t2 ht1 ht2
      constructor
      · intro hk
        rw [ht, if_pos hk]
      · intro hk
        rw [ht, if_neg hk]
    · intro i st st2 h1 h2
      simp only [toggleVideo, hsid] at h2
      have hpt := updStream_pointwise (fun s0 => rfl) h1 h2
      refine ⟨hpt.1, ?_⟩
      intro heq
      refine ⟨(hpt.2 heq).1, ?_⟩
      intro j t t2 ht1 ht2
      have ht := (hpt.2 heq).2 j t t2 ht1 ht2
      constructor
      · intro hk
        rw [ht, if_pos hk]
      · intro hk
        rw [ht, if_neg hk]

/-- C9 witness: toggling on a concrete active-call state flips the flags;
on the initial state (no stream) it is a no-op. -/
theorem C9_toggles_witness :
    toggleMute (mkInitial "user_4") = mkInitial "user_4" ∧
    (toggleMute exActive).isMuted = (!exActive.isMuted) ∧
    (toggleVideo exActive).isVideoOff = (!exActive.isVideoOff) := by
  refine ⟨((C9_toggles (mkInitial "user_4")).1 (by decide)).1, ?_, ?_⟩
  · exact ((C9_toggles exActive).2 1 (by decide)).1
  · exact ((C9_toggles exActive).2 1 (by decide)).2.1
